import Mathlib

/-!
Shallow embedding of the hw_automate_seo repository: a set of HTTP endpoint
handlers (pages, keywords, competitors, keyword-metrics enrichment, SERP
enrichment) over an external relational store and an external metrics
provider (DataForSEO).

Modelling conventions:
- JavaScript objects become structures; absent/null JS values become Option.
- The external store and the external provider are parameters of each
  handler (pure functions); a fallible call returns Except StoreError data
  or Except String data (the provider reports failure as an error payload).
- The HTTP layer is modelled by the value returned by a handler:
  Except AppError data, where the success branch serializes with status 200
  and the error branch with the AppError status (lib/response.js).
- Numeric metric fields are Nat: the code only moves them around, and the
  claims concern presence/defaulting, not arithmetic.
-/

namespace HwSeo

/-! ## lib/errors.js -/

/-- Application error, mirroring the AppError class of lib/errors.js.
The claim-relevant parts of the untyped details object are modelled by
the optional fields received, maximum, constraint and cause
(cause models details.originalError of DatabaseError). -/
structure AppError where
  code : String
  status : Nat
  message : String
  received : Option Nat
  maximum : Option Nat
  constraint : Option String
  cause : Option String
  deriving DecidableEq, Repr

/-- ValidationError of lib/errors.js with no details. -/
def validationError (message : String) : AppError :=
  ⟨"VALIDATION_ERROR", 400, message, none, none, none, none⟩

/-- ValidationError carrying received/maximum details (the per-request ceilings). -/
def validationErrorMax (message : String) (received maximum : Nat) : AppError :=
  ⟨"VALIDATION_ERROR", 400, message, some received, some maximum, none, none⟩

/-- UnauthorizedError of lib/errors.js. -/
def unauthorizedError : AppError :=
  ⟨"UNAUTHORIZED", 401, "Invalid or missing API key", none, none, none, none⟩

/-- DuplicateError of lib/errors.js. -/
def duplicateError (resource : String) : AppError :=
  ⟨"DUPLICATE_ERROR", 409, resource ++ " already exists", none, none, none, none⟩

/-- ExternalApiError of lib/errors.js. -/
def externalApiError (service originalError : String) : AppError :=
  ⟨"EXTERNAL_API_ERROR", 502, service ++ " API error: " ++ originalError,
    none, none, none, none⟩

/-- DatabaseError of lib/errors.js; cause records details.originalError. -/
def databaseError (operation cause : String) : AppError :=
  ⟨"DATABASE_ERROR", 500, "Database " ++ operation ++ " failed",
    none, none, none, some cause⟩

/-- The generic response of lib/response.js error() for a thrown value that
is not an AppError instance. -/
def internalError : AppError :=
  ⟨"INTERNAL_ERROR", 500, "An unexpected error occurred", none, none, none, none⟩

/-- Error object returned by the store client (Supabase): a Postgres error
code (a string such as 23505, absent for e.g. network errors), a message,
and the optional column/constraint fields referenced by mapSupabaseError. -/
structure StoreError where
  code : Option String
  message : String
  column : Option String
  constraint : Option String
  deriving DecidableEq, Repr

/-- String interpolation of a possibly-undefined JS value. -/
def jsShow : Option String → String
  | some s => s
  | none => "undefined"

/-- mapSupabaseError of lib/errors.js. -/
def mapSupabaseError (e : StoreError) (operation : String) : AppError :=
  if e.code = some "23505" then
    duplicateError "Record"
  else if e.code = some "23503" then
    ⟨"VALIDATION_ERROR", 400, "Referenced record does not exist",
      none, none, e.constraint, none⟩
  else if e.code = some "23502" then
    validationError ("Required field is null: " ++ jsShow e.column)
  else
    databaseError operation e.message

/-- HTTP status of a handler outcome, per lib/response.js: success
serializes with status 200, an AppError with its own status. -/
def statusOf {α : Type} : Except AppError α → Nat
  | .ok _ => 200
  | .error e => e.status

/-- An outcome is a validation failure: an AppError with the
VALIDATION_ERROR code and status 400. -/
def isValidationErr {α : Type} : Except AppError α → Bool
  | .ok _ => false
  | .error e => e.code = "VALIDATION_ERROR" && e.status = 400

/-- Whether an Except value is in the error branch. -/
def exceptIsErr {ε α : Type} : Except ε α → Bool
  | .error _ => true
  | .ok _ => false

/-! ## String primitives

The JavaScript string methods used by the handlers (toLowerCase,
toUpperCase, trim, startsWith), implemented over the character list so
that concrete inputs evaluate. -/

/-- JavaScript String.prototype.toLowerCase (ASCII). -/
def strLower (s : String) : String := String.mk (s.data.map Char.toLower)

/-- JavaScript String.prototype.toUpperCase (ASCII). -/
def strUpper (s : String) : String := String.mk (s.data.map Char.toUpper)

/-- ASCII whitespace, as trimmed by String.prototype.trim. -/
def isWsChar (c : Char) : Bool := c == ' ' || c == '\t' || c == '\n' || c == '\r'

/-- JavaScript String.prototype.trim. -/
def strTrim (s : String) : String :=
  String.mk (((s.data.dropWhile isWsChar).reverse.dropWhile isWsChar).reverse)

/-- Whether p is an initial segment of s (String.prototype.startsWith). -/
def strStarts (s p : String) : Bool := s.data.take p.data.length == p.data

/-! ## lib/auth.js -/

/-- verifyApiKey of lib/auth.js: strict equality between the x-api-key
header and the API_KEY environment variable; either side may be undefined
(none), and undefined === undefined holds in JavaScript. -/
def verifyApiKey (header envKey : Option String) : Bool :=
  header == envKey

/-! ## Country/location mapping (api/enrich/keywords.js lines 7-14, the
identical table in the SERP handler, and VALID_COUNTRIES of
api/keywords/batch.js) -/

/-- COUNTRY_TO_LOCATION of the enrichment handlers: a fixed object mapping
country codes to DataForSEO location codes.  The object has six entries;
lookup of any other key yields undefined (none). -/
def COUNTRY_TO_LOCATION (c : String) : Option Nat :=
  if c = "UK" then some 2826
  else if c = "US" then some 2840
  else if c = "UAE" then some 2784
  else if c = "AU" then some 2036
  else if c = "SG" then some 2702
  else if c = "HK" then some 2344
  else none

/-- The location code used for a country: COUNTRY_TO_LOCATION[c] with the
fallback 2826 (the JS expression COUNTRY_TO_LOCATION[country] or-else 2826). -/
def locationFor (c : String) : Nat :=
  (COUNTRY_TO_LOCATION c).getD 2826

/-- VALID_COUNTRIES of the keywords batch endpoint. -/
def VALID_COUNTRIES : List String := ["UK", "US", "UAE", "AU", "CA", "SG", "HK"]

/-! ## /enrich/keywords (api/enrich/keywords.js): data model -/

/-- A keywords-table row as selected by the enrichment handlers
(select id, keyword_text, country). -/
structure DbKeyword where
  id : String
  keyword_text : String
  country : String
  deriving DecidableEq, Repr

/-- An inline keyword of the request body (keywords: [{text, country}]);
country may be absent. -/
structure InlineKw where
  text : String
  country : Option String
  deriving DecidableEq, Repr

/-- A working-set entry of the metrics enrichment: id is null for inline
(ephemeral) keywords and the stored id for database-resolved ones; country
may be absent for inline keywords. -/
structure KwEntry where
  id : Option String
  keyword_text : String
  country : Option String
  deriving DecidableEq, Repr

/-- One record of the provider response for the metrics path.  Numeric
fields may be absent (undefined in the JS payload). -/
structure MetricRecord where
  keyword : String
  search_volume : Option Nat
  keyword_difficulty : Option Nat
  cpc : Option Nat
  competition : Option Nat
  deriving DecidableEq, Repr

/-- One entry of the flat result list returned by /enrich/keywords.  All
numeric fields are plain numbers: the handler applies an or-else-0 default
to each. -/
structure MetricEntry where
  keyword : String
  country : String
  search_volume : Nat
  difficulty : Nat
  cpc : Nat
  competition : Nat
  deriving DecidableEq, Repr

/-- A keyword_metrics row as passed to the store insert. -/
structure MetricRow where
  keyword_id : String
  search_volume : Nat
  difficulty : Nat
  cpc : Nat
  competition : Nat
  deriving DecidableEq, Repr

instance {ε α : Type} [DecidableEq ε] [DecidableEq α] : DecidableEq (Except ε α) :=
  fun x y =>
    match x, y with
    | .ok a, .ok b =>
      if h : a = b then .isTrue (by rw [h])
      else .isFalse (by intro hh; cases hh; exact h rfl)
    | .error a, .error b =>
      if h : a = b then .isTrue (by rw [h])
      else .isFalse (by intro hh; cases hh; exact h rfl)
    | .ok _, .error _ => .isFalse (by intro hh; cases hh)
    | .error _, .ok _ => .isFalse (by intro hh; cases hh)

/-- Outcome of the metrics enrichment handler: the serialized response and
the keyword_metrics rows whose insert succeeded. -/
structure MetricsOutcome where
  resp : Except AppError (List MetricEntry)
  persisted : List MetricRow
  deriving DecidableEq, Repr

/-- Request body (and auth header, method) of POST /enrich/keywords. -/
structure MetricsReq where
  apiKeyHeader : Option String
  method : String
  keyword_ids : Option (List String)
  keywords : Option (List InlineKw)
  deriving DecidableEq, Repr

/-! ## /enrich/keywords: country partition -/

/-- The country key used for grouping: the JS expression
kw.country or-else UK, where both undefined and the empty string are
falsy. -/
def countryOf (kw : KwEntry) : String :=
  match kw.country with
  | none => "UK"
  | some c => if c = "" then "UK" else c

/-- One step of the grouping reduce of the handler: append the entry to its
country group if the key exists, otherwise add a new group at the end
(object insertion order; country codes are non-numeric keys, so
Object.entries later iterates groups in insertion order). -/
def insertGrouped (acc : List (String × List KwEntry)) (kw : KwEntry) :
    List (String × List KwEntry) :=
  if acc.any (fun p => p.1 == countryOf kw) then
    acc.map (fun p => if p.1 = countryOf kw then (p.1, p.2 ++ [kw]) else p)
  else acc ++ [(countryOf kw, [kw])]

/-- The byCountry partition of the handler (the reduce at lines 77-82),
paired with the Object.entries iteration order. -/
def groupByCountry (ws : List KwEntry) : List (String × List KwEntry) :=
  ws.foldl insertGrouped []

/-- The country codes of a working set in order of first occurrence,
relative to a list of codes already seen. -/
def newCountries : List KwEntry → List String → List String
  | [], _ => []
  | kw :: rest, seen =>
    if countryOf kw ∈ seen then newCountries rest seen
    else countryOf kw :: newCountries rest (seen ++ [countryOf kw])

/-- The country codes of a working set in order of first occurrence. -/
def firstOccurrences (ws : List KwEntry) : List String := newCountries ws []

/-! ## /enrich/keywords: reconciliation and main loop -/

/-- The match-back of a provider record to a working-set entry of its group:
Array.find with case-insensitive exact text comparison. -/
def matchEntry (kws : List KwEntry) (r : MetricRecord) : Option KwEntry :=
  kws.find? (fun k => strLower k.keyword_text == strLower r.keyword)

/-- The keyword_metrics row built for a matched stored keyword: each
missing provider field defaults to 0. -/
def recordRow (kid : String) (r : MetricRecord) : MetricRow :=
  ⟨kid, r.search_volume.getD 0, r.keyword_difficulty.getD 0,
    r.cpc.getD 0, r.competition.getD 0⟩

/-- The response entry pushed for a provider record, annotated with its
group's country; each missing provider field defaults to 0. -/
def recordEntry (country : String) (r : MetricRecord) : MetricEntry :=
  ⟨r.keyword, country, r.search_volume.getD 0, r.keyword_difficulty.getD 0,
    r.cpc.getD 0, r.competition.getD 0⟩

/-- The inner result loop of the handler (lines 97-127) for one country
group: every record is appended to the flat result list; a record matched
to an entry that carries a stored id additionally attempts a
keyword_metrics insert (insertFailP tells which inserts fail; a failed
insert is only logged). -/
def processGroup (insertFailP : MetricRow → Bool) (country : String)
    (kws : List KwEntry) :
    List MetricRecord → List MetricEntry × List MetricRow →
    List MetricEntry × List MetricRow
  | [], acc => acc
  | r :: rest, (entries, rows) =>
    let rows' :=
      match matchEntry kws r with
      | some k =>
        match k.id with
        | some kid =>
          if insertFailP (recordRow kid r) then rows else rows ++ [recordRow kid r]
        | none => rows
      | none => rows
    processGroup insertFailP country kws rest (entries ++ [recordEntry country r], rows')

/-- The per-country-group loop of the handler (lines 87-128): one provider
call per group; a provider failure aborts the whole request with an
ExternalApiError; a successful group's records are reconciled and
accumulated. -/
def runGroups (provider : List String → Nat → Except String (List MetricRecord))
    (insertFailP : MetricRow → Bool) :
    List (String × List KwEntry) → List MetricEntry → List MetricRow →
    MetricsOutcome
  | [], entries, rows => ⟨.ok entries, rows⟩
  | (c, kws) :: rest, entries, rows =>
    match provider (kws.map (fun k => k.keyword_text)) (locationFor c) with
    | .error msg => ⟨.error (externalApiError "DataForSEO" msg), rows⟩
    | .ok records =>
      runGroups provider insertFailP rest
        (processGroup insertFailP c kws records (entries, rows)).1
        (processGroup insertFailP c kws records (entries, rows)).2

/-- The working set built from inline keywords (keywords present and
non-empty), as the handler's else-if branch. -/
def inlineSet : Option (List InlineKw) → List KwEntry
  | some ks => if ks.length > 0 then ks.map (fun k => ⟨none, k.text, k.country⟩) else []
  | none => []

/-- The working set of the metrics handler assuming the keyword select
succeeds: stored rows when keyword_ids is present and non-empty, inline
keywords otherwise. -/
def metricsWorkingSet (dbRows : List String → List DbKeyword)
    (ids? : Option (List String)) (kws? : Option (List InlineKw)) : List KwEntry :=
  match ids? with
  | some ids =>
    if ids.length > 0 then
      (dbRows ids).map (fun r => ⟨some r.id, r.keyword_text, some r.country⟩)
    else inlineSet kws?
  | none => inlineSet kws?

/-- The handler body after keyword resolution (lines 65-128): the empty
and ceiling validations, then the grouped provider calls. -/
def enrichResolved (provider : List String → Nat → Except String (List MetricRecord))
    (insertFailP : MetricRow → Bool) (wset : List KwEntry) : MetricsOutcome :=
  if wset.length = 0 then
    ⟨.error (validationError "No keywords found to enrich"), []⟩
  else if wset.length > 100 then
    ⟨.error (validationErrorMax "Maximum 100 keywords per request" wset.length 100), []⟩
  else
    runGroups provider insertFailP (groupByCountry wset) [] []

/-- The /enrich/keywords handler (api/enrich/keywords.js), with the store
(keyword select and metric inserts) and the provider as parameters. -/
def enrichKeywordsHandler (envKey : Option String)
    (db : List String → Except StoreError (List DbKeyword))
    (provider : List String → Nat → Except String (List MetricRecord))
    (insertFailP : MetricRow → Bool) (req : MetricsReq) : MetricsOutcome :=
  if verifyApiKey req.apiKeyHeader envKey then
    if req.method = "POST" then
      if req.keyword_ids = none ∧ req.keywords = none then
        ⟨.error (validationError "Must provide either keyword_ids or keywords array"), []⟩
      else
        match req.keyword_ids with
        | some ids =>
          if ids.length > 0 then
            match db ids with
            | .error e => ⟨.error (mapSupabaseError e "select"), []⟩
            | .ok rows =>
              enrichResolved provider insertFailP
                (rows.map (fun r => ⟨some r.id, r.keyword_text, some r.country⟩))
          else enrichResolved provider insertFailP (inlineSet req.keywords)
        | none => enrichResolved provider insertFailP (inlineSet req.keywords)
    else ⟨.error (validationError ("Method " ++ req.method ++ " not allowed")), []⟩
  else ⟨.error unauthorizedError, []⟩

/-! ## /enrich/serp: data model -/

/-- The configured first-party domain of the SERP handler. -/
def HOXTON_DOMAIN : String := "hoxtonwealth.com"

/-- An organic SERP result item as returned by fetchSERP (rank_absolute,
url, domain, title; the handler recomputes the domain itself). -/
structure SerpItem where
  rank_absolute : Nat
  url : String
  title : String
  deriving DecidableEq, Repr

/-- A serp_rankings row as passed to the batched store insert. -/
structure SerpRecord where
  keyword_id : String
  position : Nat
  url : String
  domain : String
  title : String
  is_hoxton : Bool
  deriving DecidableEq, Repr

/-- A competitor_rankings row as passed to the batched store insert. -/
structure CompetitorRecord where
  keyword_id : String
  competitor_id : String
  position : Nat
  url : String
  deriving DecidableEq, Repr

/-- A competitors-table row as selected by the SERP handler (id, domain). -/
structure Competitor where
  id : String
  domain : String
  deriving DecidableEq, Repr

/-- One entry of the flat list returned by /enrich/serp: either the error
entry recorded for a keyword whose provider call failed, or the summary
entry for a processed keyword. -/
inductive SerpEntry where
  | failed (keyword : String) (errMsg : String)
  | summary (keyword : String) (country : String) (results_count : Nat)
      (hoxton_position : Option Nat)
  deriving DecidableEq, Repr

/-- Whether a SERP list entry is an error entry. -/
def SerpEntry.isFailed : SerpEntry → Bool
  | .failed _ _ => true
  | .summary _ _ _ _ => false

/-- Outcome of the SERP enrichment handler: the serialized response and the
rows of the two batched inserts that succeeded. -/
structure SerpOutcome where
  resp : Except AppError (List SerpEntry)
  persistedSerp : List SerpRecord
  persistedComp : List CompetitorRecord
  deriving DecidableEq, Repr

/-- Request body (and auth header, method) of POST /enrich/serp. -/
structure SerpReq where
  apiKeyHeader : Option String
  method : String
  keyword_ids : Option (List String)
  deriving DecidableEq, Repr

/-! ## /enrich/serp: domain extraction and matching -/

/-- Substring test, as the JavaScript String.prototype.includes. -/
def strContains (s sub : String) : Bool :=
  (List.range (s.toList.length + 1)).any
    (fun i => (s.toList.drop i).take sub.toList.length == sub.toList)

/-- The hostname of a URL whose scheme has been stripped: the authority up
to the first path/query/fragment delimiter, without userinfo and port,
lower-cased (new URL lower-cases the hostname).  IPv6 literals are not
modelled. -/
def hostOf (afterScheme : String) : String :=
  let auth := afterScheme.toList.takeWhile
    (fun ch => !(ch == '/' || ch == '?' || ch == '#'))
  let noUser := auth.foldl (fun acc ch => if ch == '@' then [] else acc ++ [ch]) []
  let host := noUser.takeWhile (fun ch => !(ch == ':'))
  String.mk (host.map Char.toLower)

/-- extractDomain of the SERP handler: parse the URL, take its hostname and
strip one leading www. label; a URL that does not parse (modelled: one
without an http or https scheme) is returned unchanged.  The provider
returns http(s) URLs, so only those schemes are modelled. -/
def extractDomain (url : String) : String :=
  if strStarts url "https://" then
    let h := hostOf (String.mk (url.data.drop 8))
    if strStarts h "www." then String.mk (h.data.drop 4) else h
  else if strStarts url "http://" then
    let h := hostOf (String.mk (url.data.drop 7))
    if strStarts h "www." then String.mk (h.data.drop 4) else h
  else url

/-- Lookup in the competitorDomains Map built from the competitors select:
for duplicate keys the later entry wins (Map constructor semantics); the
stored domain column is unique, so duplicates do not occur in practice. -/
def mapGet (l : List (String × String)) (k : String) : Option String :=
  l.foldl (fun acc p => if p.1 == k then some p.2 else acc) none

/-- The per-item loop of the SERP handler (lines 94-118): each item
contributes one serp_rankings row (domain extracted, is_hoxton by substring
match against the first-party domain) and, when the bare domain is a key of
the competitor map, one competitor_rankings row. -/
def processItems (compMap : List (String × String)) (kwId : String) :
    List SerpItem → List SerpRecord × List CompetitorRecord →
    List SerpRecord × List CompetitorRecord
  | [], acc => acc
  | item :: rest, (srecs, crecs) =>
    processItems compMap kwId rest
      (srecs ++ [⟨kwId, item.rank_absolute, item.url, extractDomain item.url,
          item.title, strContains (extractDomain item.url) HOXTON_DOMAIN⟩],
        match mapGet compMap (extractDomain item.url) with
        | some cid => crecs ++ [⟨kwId, cid, item.rank_absolute, item.url⟩]
        | none => crecs)

/-- The hoxton_position summary field: the rank of the first item whose
bare domain contains the first-party domain, with the JS or-else-null
coercing a rank of 0 to null as well. -/
def hoxtonPosition (items : List SerpItem) : Option Nat :=
  match items.find? (fun i => strContains (extractDomain i.url) HOXTON_DOMAIN) with
  | some i => if i.rank_absolute = 0 then none else some i.rank_absolute
  | none => none

/-- The list entry produced for one keyword: the error entry when its
provider call fails, the summary entry otherwise. -/
def serpSummary (provider : String → Nat → Except String (List SerpItem))
    (kw : DbKeyword) : SerpEntry :=
  match provider kw.keyword_text (locationFor kw.country) with
  | .error msg => .failed kw.keyword_text msg
  | .ok items => .summary kw.keyword_text kw.country items.length (hoxtonPosition items)

/-- The per-keyword loop of the SERP handler (lines 80-128): one provider
call per keyword; a failure records an error entry for that keyword only
and the loop continues; a success accumulates its serp/competitor rows and
records a summary entry. -/
def serpLoop (provider : String → Nat → Except String (List SerpItem))
    (compMap : List (String × String)) :
    List DbKeyword →
    List SerpEntry × List SerpRecord × List CompetitorRecord →
    List SerpEntry × List SerpRecord × List CompetitorRecord
  | [], acc => acc
  | kw :: rest, (es, ss, cs) =>
    match provider kw.keyword_text (locationFor kw.country) with
    | .error msg => serpLoop provider compMap rest (es ++ [.failed kw.keyword_text msg], ss, cs)
    | .ok items =>
      serpLoop provider compMap rest
        (es ++ [.summary kw.keyword_text kw.country items.length (hoxtonPosition items)],
          (processItems compMap kw.id items (ss, cs)).1,
          (processItems compMap kw.id items (ss, cs)).2)

/-- The /enrich/serp handler (the SERP variant of the enrichment
orchestrator), with the store (keyword select, competitors select, the two
batched inserts) and the provider as parameters.  The competitors select
ignores its error and falls back to an empty list; each batched insert
failure is only logged (serpFail/compFail tell which of the two batched
inserts fail). -/
def enrichSerpHandler (envKey : Option String)
    (db : List String → Except StoreError (List DbKeyword))
    (compDb : Option (List Competitor))
    (provider : String → Nat → Except String (List SerpItem))
    (serpFail compFail : Bool) (req : SerpReq) : SerpOutcome :=
  if verifyApiKey req.apiKeyHeader envKey then
    if req.method = "POST" then
      match req.keyword_ids with
      | none => ⟨.error (validationError "Missing required field(s): keyword_ids"), [], []⟩
      | some ids =>
        if ids.length = 0 then
          ⟨.error (validationError "keyword_ids array cannot be empty"), [], []⟩
        else if ids.length > 50 then
          ⟨.error (validationErrorMax "Maximum 50 keywords per SERP request" ids.length 50),
            [], []⟩
        else
          match db ids with
          | .error e => ⟨.error (mapSupabaseError e "select"), [], []⟩
          | .ok keywords =>
            if keywords.length = 0 then
              ⟨.error (validationError "No keywords found with provided IDs"), [], []⟩
            else
              let compMap := (compDb.getD []).map (fun c => (c.domain, c.id))
              let looped := serpLoop provider compMap keywords ([], [], [])
              ⟨.ok looped.1,
                if serpFail then [] else looped.2.1,
                if compFail then [] else looped.2.2⟩
    else ⟨.error (validationError ("Method " ++ req.method ++ " not allowed")), [], []⟩
  else ⟨.error unauthorizedError, [], []⟩

/-! ## /keywords/batch (the batch keywords endpoint) -/

/-- A keywords row as prepared by the batch handler before the upsert. -/
structure PreparedKw where
  keyword_text : String
  country : String
  cluster : Option String
  page_id : Option String
  deriving DecidableEq, Repr

/-- Request body (and auth header, method) of POST /keywords/batch. -/
structure BatchReq where
  apiKeyHeader : Option String
  method : String
  keywords : Option (List String)
  country : Option String
  cluster : Option String
  page_id : Option String
  deriving DecidableEq, Repr

/-- The conflict key of the keywords upsert. -/
def kwKey (r : PreparedKw) : String × String := (r.keyword_text, r.country)

/-- Modelled from the spec: the store's upsert on the keywords table (the
Supabase client and the database itself are not part of the repository
sources).  Per the spec, the upsert is keyed on the (keyword_text, country)
conflict columns and duplicates collapse into one row each: each incoming
row updates the row with its key if one exists and inserts a new row
otherwise, and the upserted row list is returned. -/
def upsertKeywords (rows : List PreparedKw) : List PreparedKw :=
  rows.foldl
    (fun acc r =>
      if acc.any (fun x => kwKey x == kwKey r) then
        acc.map (fun x => if kwKey x == kwKey r then r else x)
      else acc ++ [r])
    []

/-- Number of distinct elements of a list of pairs, in the JS sense of
first-occurrence dedup. -/
def distinctCount (l : List (String × String)) : Nat :=
  (l.foldl (fun acc k => if acc.any (fun x => x == k) then acc else acc ++ [k]) []).length

/-- The missing-field list computed by validateRequired for the batch
endpoint (fields keywords and country). -/
def batchMissing (req : BatchReq) : List String :=
  (if req.keywords = none then ["keywords"] else []) ++
    (if req.country = none then ["country"] else [])

/-- The /keywords/batch handler (the batch keywords endpoint), with the
store upsert as a parameter. -/
def keywordsBatchHandler (envKey : Option String)
    (db : List PreparedKw → Except StoreError (List PreparedKw))
    (req : BatchReq) : Except AppError (List PreparedKw) :=
  if verifyApiKey req.apiKeyHeader envKey then
    if req.method = "POST" then
      if req.keywords = none ∨ req.country = none then
        .error (validationError
          ("Missing required field(s): " ++ String.intercalate ", " (batchMissing req)))
      else
        if strUpper (req.country.getD "") ∈ VALID_COUNTRIES then
          if (req.keywords.getD []).length = 0 then
            .error (validationError "Keywords array cannot be empty")
          else if (req.keywords.getD []).length > 1000 then
            .error (validationErrorMax "Maximum 1000 keywords per batch"
              (req.keywords.getD []).length 1000)
          else
            match db ((req.keywords.getD []).map (fun kw =>
              (⟨strLower (strTrim kw), strUpper (req.country.getD ""),
                req.cluster, req.page_id⟩ : PreparedKw))) with
            | .error e => .error (mapSupabaseError e "upsert")
            | .ok data => .ok data
        else .error (validationError "Invalid value for country")
    else .error (validationError ("Method " ++ req.method ++ " not allowed"))
  else .error unauthorizedError

/-! ## POST /pages (api/pages/index.js, the POST arm of the method switch)

Only the POST arm is modelled: the claims about this endpoint concern how a
store failure of the insert is surfaced.  Unlike the batch and enrichment
handlers, handlePost rethrows the raw store error (throw dbError), so the
outer catch serializes it through the non-AppError branch of
lib/response.js error(). -/

/-- A pages row as inserted by handlePost. -/
structure PageRow where
  page_name : String
  url : String
  cluster : String
  level : Nat
  parent_page : Option String
  sibling_links : Option String
  cross_cluster_links : Option String
  content_focus : Option String
  deriving DecidableEq, Repr

/-- Request body (and auth header, method) of POST /pages; level defaults
to 2 when absent. -/
structure PagesReq where
  apiKeyHeader : Option String
  method : String
  page_name : Option String
  url : Option String
  cluster : Option String
  level : Option Nat
  parent_page : Option String
  sibling_links : Option String
  cross_cluster_links : Option String
  content_focus : Option String
  deriving DecidableEq, Repr

/-- Truthiness of an optional string field, as the JS check
(absent, null and the empty string are falsy). -/
def presentStr : Option String → Bool
  | some s => s ≠ ""
  | none => false

/-- The row handlePost passes to the insert. -/
def preparedPage (req : PagesReq) : PageRow :=
  ⟨req.page_name.getD "", req.url.getD "", req.cluster.getD "", req.level.getD 2,
    req.parent_page, req.sibling_links, req.cross_cluster_links, req.content_focus⟩

/-- The POST arm of the /pages handler.  A failed insert throws the raw
store error, which the handler's catch serializes as the generic
INTERNAL_ERROR response because it is not an AppError instance. -/
def pagesPostHandler (envKey : Option String)
    (db : PageRow → Except StoreError PageRow) (req : PagesReq) :
    Except AppError PageRow :=
  if verifyApiKey req.apiKeyHeader envKey then
    if req.method = "POST" then
      if presentStr req.page_name && presentStr req.url && presentStr req.cluster then
        match db (preparedPage req) with
        | .error _ => .error internalError
        | .ok page => .ok page
      else .error (validationError "Missing required fields")
    else .error (validationError ("Method " ++ req.method ++ " not allowed"))
  else .error unauthorizedError

/-! ## Concrete fixtures used by the concrete parts of claims and by
witnesses -/

/-- A working set with countries UK, US, UK in that order. -/
def wsUKUSUK : List KwEntry :=
  [⟨some "1", "kw a", some "UK"⟩, ⟨some "2", "kw b", some "US"⟩, ⟨some "3", "kw c", some "UK"⟩]

/-- 101 distinct keyword ids. -/
def ids101 : List String := (List.range 101).map (fun n => Nat.repr n)

/-- 51 distinct keyword ids. -/
def ids51 : List String := (List.range 51).map (fun n => Nat.repr n)

/-- A store in which every requested id resolves to one stored keyword. -/
def idRows (l : List String) : List DbKeyword :=
  l.map (fun s => ⟨s, "kw " ++ s, "UK"⟩)

/-- Three stored keywords for the SERP batch-of-three scenario. -/
def serpDb3 : List DbKeyword :=
  [⟨"1", "alpha", "UK"⟩, ⟨"2", "beta", "UK"⟩, ⟨"3", "gamma", "UK"⟩]

/-- A SERP provider that fails for the keyword beta and succeeds (with an
empty organic list) for every other keyword. -/
def failBeta : String → Nat → Except String (List SerpItem) :=
  fun t _ => if t = "beta" then .error "SERP API request failed" else .ok []

/-- A batch request whose two keywords differ only in letter case. -/
def batchReqFooFoo : BatchReq :=
  ⟨none, "POST", some ["Foo", "foo"], some "UK", none, none⟩

/-- The store upsert instantiated with the spec-modelled collapse semantics. -/
def specUpsertDb : List PreparedKw → Except StoreError (List PreparedKw) :=
  fun rows => .ok (upsertKeywords rows)

/-- A store unique-violation error (Postgres code 23505). -/
def dupStoreError : StoreError :=
  ⟨some "23505", "duplicate key value violates unique constraint", none, none⟩

/-- A valid POST /pages request. -/
def pagesReqX : PagesReq :=
  ⟨some "k", "POST", some "Home", some "https://example.com/home", some "Tools",
    none, none, none, none, none⟩

/-- A valid batch request used to show store errors of the upsert are
surfaced through mapSupabaseError. -/
def batchReqOk : BatchReq :=
  ⟨some "k", "POST", some ["retirement planning"], some "uk", none, none⟩

/-- A metrics request with one inline keyword. -/
def inlineReqKw : MetricsReq := ⟨none, "POST", none, some [⟨"kw", some "UK"⟩]⟩

/-- A store resolving every id list to no rows. -/
def dbNone : List String → List DbKeyword := fun _ => []

/-- A fallible store whose keyword select always succeeds with no rows. -/
def dbOkEmpty : List String → Except StoreError (List DbKeyword) :=
  fun _ => Except.ok []

/-- A metrics provider failing every call with a network error. -/
def providerNetErr : List String → Nat → Except String (List MetricRecord) :=
  fun _ _ => Except.error "Network error"

/-- A metrics provider returning one record (difficulty and competition
omitted) for every call. -/
def providerOk1 : List String → Nat → Except String (List MetricRecord) :=
  fun _ _ => Except.ok [⟨"kw", some 5, none, some 1, none⟩]

/-- A store resolving every id list to the three SERP keywords. -/
def serpDbRows3 : List String → List DbKeyword := fun _ => serpDb3

/-- The SERP request for the batch-of-three scenario. -/
def serpReq123 : SerpReq := ⟨none, "POST", some ["1", "2", "3"]⟩

/-- A metrics request carrying 101 keyword ids. -/
def metricsReq101 : MetricsReq := ⟨none, "POST", some ids101, none⟩

/-- A SERP request carrying 51 keyword ids. -/
def serpReq51 : SerpReq := ⟨none, "POST", some ids51⟩

/-! # Helper lemmas -/

theorem verifyApiKey_iff (h e : Option String) : verifyApiKey h e = true ↔ h = e := by
  simp [verifyApiKey]

theorem mapSupabaseError_status_ne_401 (e : StoreError) (op : String) :
    (mapSupabaseError e op).status ≠ 401 := by
  unfold mapSupabaseError duplicateError validationError databaseError
  split_ifs <;> simp

theorem runGroups_status_ne_401
    (provider : List String → Nat → Except String (List MetricRecord))
    (f : MetricRow → Bool) :
    ∀ (gs : List (String × List KwEntry)) (es : List MetricEntry) (rs : List MetricRow),
      statusOf (runGroups provider f gs es rs).resp ≠ 401
  | [], es, rs => by simp [runGroups, statusOf]
  | (c, kws) :: rest, es, rs => by
    cases hp : provider (kws.map (fun k => k.keyword_text)) (locationFor c) with
    | error msg => simp [runGroups, hp, statusOf, externalApiError]
    | ok records =>
      simp only [runGroups, hp]
      exact runGroups_status_ne_401 provider f rest _ _

theorem enrichResolved_status_ne_401
    (provider : List String → Nat → Except String (List MetricRecord))
    (f : MetricRow → Bool) (wset : List KwEntry) :
    statusOf (enrichResolved provider f wset).resp ≠ 401 := by
  unfold enrichResolved
  split_ifs with h0 h1
  · simp [statusOf, validationError]
  · simp [statusOf, validationErrorMax]
  · exact runGroups_status_ne_401 provider f _ _ _

theorem enrichKeywords_status_ne_401 (envKey : Option String)
    (db : List String → Except StoreError (List DbKeyword))
    (provider : List String → Nat → Except String (List MetricRecord))
    (f : MetricRow → Bool) (req : MetricsReq)
    (hauth : verifyApiKey req.apiKeyHeader envKey = true) :
    statusOf (enrichKeywordsHandler envKey db provider f req).resp ≠ 401 := by
  unfold enrichKeywordsHandler
  rw [if_pos hauth]
  by_cases hm : req.method = "POST"
  · rw [if_pos hm]
    by_cases hb : req.keyword_ids = none ∧ req.keywords = none
    · rw [if_pos hb]
      simp [statusOf, validationError]
    · rw [if_neg hb]
      rcases hki : req.keyword_ids with _ | ids
      · exact enrichResolved_status_ne_401 provider f _
      · dsimp only
        by_cases hlen : ids.length > 0
        · rw [if_pos hlen]
          cases hdb : db ids with
          | error e => simpa [statusOf] using mapSupabaseError_status_ne_401 e "select"
          | ok rows => exact enrichResolved_status_ne_401 provider f _
        · rw [if_neg hlen]
          exact enrichResolved_status_ne_401 provider f _
  · rw [if_neg hm]
    simp [statusOf, validationError]

theorem enrichSerp_status_ne_401 (envKey : Option String)
    (db : List String → Except StoreError (List DbKeyword))
    (compDb : Option (List Competitor))
    (provider : String → Nat → Except String (List SerpItem))
    (serpFail compFail : Bool) (req : SerpReq)
    (hauth : verifyApiKey req.apiKeyHeader envKey = true) :
    statusOf (enrichSerpHandler envKey db compDb provider serpFail compFail req).resp ≠ 401 := by
  unfold enrichSerpHandler
  rw [if_pos hauth]
  by_cases hm : req.method = "POST"
  · rw [if_pos hm]
    rcases hki : req.keyword_ids with _ | ids
    · simp [statusOf, validationError]
    · dsimp only
      by_cases h0 : ids.length = 0
      · rw [if_pos h0]
        simp [statusOf, validationError]
      · rw [if_neg h0]
        by_cases h50 : ids.length > 50
        · rw [if_pos h50]
          simp [statusOf, validationErrorMax]
        · rw [if_neg h50]
          cases hdb : db ids with
          | error e => simpa [statusOf] using mapSupabaseError_status_ne_401 e "select"
          | ok keywords =>
            dsimp only
            by_cases hkz : keywords.length = 0
            · rw [if_pos hkz]
              simp [statusOf, validationError]
            · rw [if_neg hkz]
              simp [statusOf]
  · rw [if_neg hm]
    simp [statusOf, validationError]

/-! # Claim theorems -/

/-- C5, counterexample: the claim that every code of the enumerated set
(UK, US, UAE, AU, CA, SG, HK) is assigned a location identifier by the
country-to-location mapping is false at CA: VALID_COUNTRIES contains CA,
but COUNTRY_TO_LOCATION has no CA entry, so CA takes the fallback UK
location 2826 like an unrecognized code. -/
theorem C5_counterexample_CA_unmapped :
    ¬ (∀ c ∈ VALID_COUNTRIES, (COUNTRY_TO_LOCATION c).isSome = true) ∧
      "CA" ∈ VALID_COUNTRIES ∧ COUNTRY_TO_LOCATION "CA" = none ∧
      locationFor "CA" = 2826 := by
  decide

/-- C5 (amended): the country-to-location mapping assigns fixed location
identifiers to exactly the six codes UK (2826), US (2840), UAE (2784),
AU (2036), SG (2702) and HK (2344); CA — although part of the
VALID_COUNTRIES enumeration — has no mapping entry, and every code outside
those six (CA included) falls back to the UK location identifier 2826
instead of failing. -/
theorem C5_country_location_mapping :
    COUNTRY_TO_LOCATION "UK" = some 2826 ∧ COUNTRY_TO_LOCATION "US" = some 2840 ∧
    COUNTRY_TO_LOCATION "UAE" = some 2784 ∧ COUNTRY_TO_LOCATION "AU" = some 2036 ∧
    COUNTRY_TO_LOCATION "SG" = some 2702 ∧ COUNTRY_TO_LOCATION "HK" = some 2344 ∧
    COUNTRY_TO_LOCATION "CA" = none ∧
    (∀ c : String, c ∉ (["UK", "US", "UAE", "AU", "SG", "HK"] : List String) →
      locationFor c = 2826) := by
  refine ⟨by decide, by decide, by decide, by decide, by decide, by decide, by decide, ?_⟩
  intro c hc
  unfold locationFor COUNTRY_TO_LOCATION
  split_ifs with h1 h2 h3 h4 h5 h6
  · subst h1; exact absurd (by decide) hc
  · subst h2; exact absurd (by decide) hc
  · subst h3; exact absurd (by decide) hc
  · subst h4; exact absurd (by decide) hc
  · subst h5; exact absurd (by decide) hc
  · subst h6; exact absurd (by decide) hc
  · rfl

/-- C5 witness: the fallback clause of the amended mapping theorem applied
at CA and at an arbitrary unrecognized code. -/
theorem C5_country_location_mapping_witness :
    locationFor "CA" = 2826 ∧ locationFor "FR" = 2826 :=
  ⟨C5_country_location_mapping.2.2.2.2.2.2.2 "CA" (by decide),
    C5_country_location_mapping.2.2.2.2.2.2.2 "FR" (by decide)⟩

/-- C10: verifyApiKey authorizes a request exactly when the x-api-key
header strictly equals the API_KEY environment value; with both undefined
the equality holds, so with no API_KEY configured a request without the
header is not rejected with 401 by the authenticated enrichment
endpoints. -/
theorem C10_auth_undefined_equals_undefined :
    (∀ h e : Option String, verifyApiKey h e = true ↔ h = e) ∧
    verifyApiKey none none = true ∧
    (∀ (db : List String → Except StoreError (List DbKeyword))
        (provider : List String → Nat → Except String (List MetricRecord))
        (f : MetricRow → Bool) (req : MetricsReq), req.apiKeyHeader = none →
      statusOf (enrichKeywordsHandler none db provider f req).resp ≠ 401) ∧
    (∀ (db : List String → Except StoreError (List DbKeyword))
        (compDb : Option (List Competitor))
        (provider : String → Nat → Except String (List SerpItem))
        (sf cf : Bool) (req : SerpReq), req.apiKeyHeader = none →
      statusOf (enrichSerpHandler none db compDb provider sf cf req).resp ≠ 401) := by
  refine ⟨verifyApiKey_iff, rfl, ?_, ?_⟩
  · intro db provider f req hh
    exact enrichKeywords_status_ne_401 none db provider f req
      (by rw [hh]; rfl)
  · intro db compDb provider sf cf req hh
    exact enrichSerp_status_ne_401 none db compDb provider sf cf req
      (by rw [hh]; rfl)

/-- C9, counterexample: the claim that every store-layer constraint
violation surfaced by a handler goes through the deterministic mapping is
false for POST /pages: handlePost rethrows the raw store error, so a
unique violation (23505) on the pages insert is answered with the generic
500 INTERNAL_ERROR response, not with the DuplicateError 409 the mapping
would give. -/
theorem C9_counterexample_pages_raw_error :
    pagesPostHandler (some "k") (fun _ => Except.error dupStoreError) pagesReqX =
      Except.error internalError ∧
    internalError.status = 500 ∧ internalError.code = "INTERNAL_ERROR" ∧
    (mapSupabaseError dupStoreError "insert").status = 409 ∧
    (mapSupabaseError dupStoreError "insert").code = "DUPLICATE_ERROR" := by
  decide

/-- C9 (amended): mapSupabaseError maps store errors deterministically —
23505 to DuplicateError (409), 23503 to ValidationError (400) carrying the
constraint, 23502 to ValidationError naming the offending column, anything
else to DatabaseError (500) wrapping the original message — and handlers
that route store failures through it (such as /keywords/batch) surface the
mapped error; but the /pages POST handler (and the plain GET list handlers)
rethrow the raw store error, which is serialized as a generic 500
INTERNAL_ERROR instead. -/
theorem C9_store_error_mapping :
    ∀ (e : StoreError) (op : String),
      (e.code = some "23505" →
        mapSupabaseError e op = duplicateError "Record" ∧
        (mapSupabaseError e op).status = 409) ∧
      (e.code = some "23503" →
        (mapSupabaseError e op).code = "VALIDATION_ERROR" ∧
        (mapSupabaseError e op).status = 400 ∧
        (mapSupabaseError e op).constraint = e.constraint) ∧
      (∀ col : String, e.code = some "23502" → e.column = some col →
        mapSupabaseError e op = validationError ("Required field is null: " ++ col)) ∧
      (e.code ≠ some "23505" → e.code ≠ some "23503" → e.code ≠ some "23502" →
        mapSupabaseError e op = databaseError op e.message ∧
        (mapSupabaseError e op).cause = some e.message) ∧
      (keywordsBatchHandler (some "k") (fun _ => Except.error e) batchReqOk =
        Except.error (mapSupabaseError e "upsert")) := by
  intro e op
  refine ⟨?_, ?_, ?_, ?_, ?_⟩
  · intro h
    unfold mapSupabaseError
    rw [if_pos h]
    exact ⟨rfl, rfl⟩
  · intro h
    unfold mapSupabaseError
    rw [if_neg (by simp [h]), if_pos h]
    exact ⟨rfl, rfl, rfl⟩
  · intro col h hcol
    unfold mapSupabaseError
    rw [if_neg (by simp [h]), if_neg (by simp [h]), if_pos h, hcol]
    rfl
  · intro h1 h2 h3
    unfold mapSupabaseError
    rw [if_neg h1, if_neg h2, if_neg h3]
    exact ⟨rfl, rfl⟩
  · rfl

/-- C9 witness: the mapping theorem applied at a concrete error of each
kind. -/
theorem C9_store_error_mapping_witness :
    (mapSupabaseError dupStoreError "insert").status = 409 ∧
    (mapSupabaseError ⟨some "23503", "fk", none, some "fk_page"⟩ "insert").status = 400 ∧
    mapSupabaseError ⟨some "23502", "nn", some "country", none⟩ "insert" =
      validationError "Required field is null: country" ∧
    (mapSupabaseError ⟨none, "boom", none, none⟩ "upsert").cause = some "boom" :=
  ⟨((C9_store_error_mapping dupStoreError "insert").1 rfl).2,
    ((C9_store_error_mapping ⟨some "23503", "fk", none, some "fk_page"⟩ "insert").2.1 rfl).2.1,
    (C9_store_error_mapping ⟨some "23502", "nn", some "country", none⟩ "insert").2.2.1
      "country" rfl rfl,
    ((C9_store_error_mapping ⟨none, "boom", none, none⟩ "upsert").2.2.2.1
      (by decide) (by decide) (by decide)).2⟩

theorem any_map_beq {α β : Type} [BEq β] (l : List α) (f : α → β) (b : β) :
    (l.map f).any (fun x => x == b) = l.any (fun x => f x == b) := by
  induction l with
  | nil => rfl
  | cons a t ih => simp [ih]

/-- The upsert preserves keys pointwise: folding the insert-or-update step
commutes with projecting every row to its conflict key. -/
theorem upsert_map_key (rows : List PreparedKw) :
    ∀ acc : List PreparedKw,
      (rows.foldl
        (fun acc r =>
          if acc.any (fun x => kwKey x == kwKey r) then
            acc.map (fun x => if kwKey x == kwKey r then r else x)
          else acc ++ [r])
        acc).map kwKey =
      (rows.map kwKey).foldl
        (fun ks k => if ks.any (fun x => x == k) then ks else ks ++ [k])
        (acc.map kwKey) := by
  induction rows with
  | nil => intro acc; rfl
  | cons r rest ih =>
    intro acc
    simp only [List.foldl_cons, List.map_cons]
    by_cases h : acc.any (fun x => kwKey x == kwKey r) = true
    · rw [if_pos h]
      have hany : (acc.map kwKey).any (fun x => x == kwKey r) = true := by
        rw [any_map_beq]
        exact h
      rw [if_pos hany, ih]
      congr 1
      rw [List.map_map]
      apply List.map_congr_left
      intro x hx
      dsimp only [Function.comp]
      by_cases hk : kwKey x == kwKey r
      · rw [if_pos hk]
        exact (eq_of_beq hk).symm
      · rw [if_neg hk]
    · rw [if_neg h]
      have hany : ¬ ((acc.map kwKey).any (fun x => x == kwKey r) = true) := by
        rw [any_map_beq]
        exact h
      rw [if_neg hany, ih]
      congr 1
      simp

/-- The number of rows returned by the spec-modelled upsert is the number
of distinct conflict keys of the incoming batch. -/
theorem upsertKeywords_length (rows : List PreparedKw) :
    (upsertKeywords rows).length = distinctCount (rows.map kwKey) := by
  calc (upsertKeywords rows).length
      = ((upsertKeywords rows).map kwKey).length := (List.length_map _ _).symm
    _ = distinctCount (rows.map kwKey) := by
        unfold upsertKeywords distinctCount
        rw [upsert_map_key rows []]
        rfl

/-- C8, counterexample: the claim that the upsert returns one row per
distinct (text, country) pair of the batch fails for texts differing only
in letter case: the handler lower-cases and trims every text before the
upsert, so the batch [Foo, foo] for UK — two distinct (text, country)
pairs as submitted — collapses to the single row (foo, UK). -/
theorem C8_counterexample_case_collapse :
    keywordsBatchHandler none specUpsertDb batchReqFooFoo =
      Except.ok [⟨"foo", "UK", none, none⟩] ∧
    distinctCount [("Foo", "UK"), ("foo", "UK")] = 2 ∧
    ([(⟨"foo", "UK", none, none⟩ : PreparedKw)]).length = 1 := by
  decide

/-- C8 (amended): for every valid batch of at most 1000 keywords, the
number of rows returned by the upsert equals the number of distinct
normalized (text, country) pairs of the batch, where the text is trimmed
and lower-cased and the country upper-cased by the handler before the
upsert keyed on the (keyword_text, country) conflict columns; duplicates
collapse into one row each. -/
theorem C8_batch_upsert_distinct :
    ∀ (envKey : Option String) (req : BatchReq) (ks : List String) (c : String),
      req.keywords = some ks → req.country = some c →
      verifyApiKey req.apiKeyHeader envKey = true → req.method = "POST" →
      strUpper c ∈ VALID_COUNTRIES → ks ≠ [] → ks.length ≤ 1000 →
      keywordsBatchHandler envKey specUpsertDb req =
        Except.ok (upsertKeywords (ks.map (fun kw =>
          (⟨strLower (strTrim kw), strUpper c, req.cluster, req.page_id⟩ : PreparedKw)))) ∧
      (upsertKeywords (ks.map (fun kw =>
          (⟨strLower (strTrim kw), strUpper c, req.cluster, req.page_id⟩ : PreparedKw)))).length =
        distinctCount (ks.map (fun kw => (strLower (strTrim kw), strUpper c))) := by
  intro envKey req ks c hks hc hauth hm henum hne hlen
  constructor
  · unfold keywordsBatchHandler
    rw [if_pos hauth, if_pos hm]
    rw [if_neg (by simp [hks, hc])]
    simp only [hks, hc, Option.getD_some]
    rw [if_pos henum]
    rw [if_neg (by simp only [List.length_eq_zero]; exact hne)]
    rw [if_neg (Nat.not_lt.mpr hlen)]
    rfl
  · rw [upsertKeywords_length, List.map_map]
    rfl

/-- C8 witness: the amended upsert-count theorem applied at a concrete
one-keyword batch. -/
theorem C8_batch_upsert_distinct_witness :
    keywordsBatchHandler (some "k") specUpsertDb batchReqOk =
      Except.ok (upsertKeywords (["retirement planning"].map (fun kw =>
        (⟨strLower (strTrim kw), strUpper "uk", none, none⟩ : PreparedKw)))) ∧
    (upsertKeywords (["retirement planning"].map (fun kw =>
        (⟨strLower (strTrim kw), strUpper "uk", none, none⟩ : PreparedKw)))).length =
      distinctCount (["retirement planning"].map (fun kw =>
        (strLower (strTrim kw), strUpper "uk"))) :=
  C8_batch_upsert_distinct (some "k") batchReqOk ["retirement planning"] "uk"
    rfl rfl rfl rfl (by decide) (by decide) (by decide)

theorem mem_keys_iff_any (acc : List (String × List KwEntry)) (c : String) :
    c ∈ acc.map Prod.fst ↔ acc.any (fun p => p.1 == c) = true := by
  simp [List.mem_map, List.any_eq_true, beq_iff_eq]

theorem insertGrouped_of_mem (acc : List (String × List KwEntry)) (kw : KwEntry)
    (h : acc.any (fun p => p.1 == countryOf kw) = true) :
    insertGrouped acc kw =
      acc.map (fun p => if p.1 = countryOf kw then (p.1, p.2 ++ [kw]) else p) := by
  unfold insertGrouped
  rw [if_pos h]

theorem insertGrouped_of_new (acc : List (String × List KwEntry)) (kw : KwEntry)
    (h : ¬ acc.any (fun p => p.1 == countryOf kw) = true) :
    insertGrouped acc kw = acc ++ [(countryOf kw, [kw])] := by
  unfold insertGrouped
  rw [if_neg h]

theorem newCountries_not_seen (ws : List KwEntry) :
    ∀ (seen : List String) (c : String), c ∈ newCountries ws seen → c ∉ seen := by
  induction ws with
  | nil =>
    intro seen c h
    simp [newCountries] at h
  | cons kw rest ih =>
    intro seen c h
    simp only [newCountries] at h
    by_cases hk : countryOf kw ∈ seen
    · rw [if_pos hk] at h
      exact ih seen c h
    · rw [if_neg hk] at h
      rcases List.mem_cons.mp h with rfl | h2
      · exact hk
      · intro hcs
        exact (ih _ c h2) (List.mem_append_left _ hcs)

theorem newCountries_nodup (ws : List KwEntry) :
    ∀ seen : List String, (newCountries ws seen).Nodup := by
  induction ws with
  | nil =>
    intro seen
    simp [newCountries]
  | cons kw rest ih =>
    intro seen
    simp only [newCountries]
    by_cases hk : countryOf kw ∈ seen
    · rw [if_pos hk]
      exact ih seen
    · rw [if_neg hk]
      refine List.nodup_cons.mpr ⟨?_, ih _⟩
      intro hmem
      exact (newCountries_not_seen rest _ _ hmem) (List.mem_append_right _ (by simp))

theorem newCountries_mem_iff (ws : List KwEntry) :
    ∀ (seen : List String) (c : String),
      c ∈ newCountries ws seen ↔ (c ∉ seen ∧ ∃ kw ∈ ws, countryOf kw = c) := by
  induction ws with
  | nil =>
    intro seen c
    simp [newCountries]
  | cons kw rest ih =>
    intro seen c
    simp only [newCountries]
    by_cases hk : countryOf kw ∈ seen
    · rw [if_pos hk, ih]
      constructor
      · rintro ⟨hns, kw', hkw', he⟩
        exact ⟨hns, kw', List.mem_cons_of_mem _ hkw', he⟩
      · rintro ⟨hns, kw', hkw', he⟩
        rcases List.mem_cons.mp hkw' with rfl | hmem
        · exact absurd (he ▸ hk) hns
        · exact ⟨hns, kw', hmem, he⟩
    · rw [if_neg hk]
      constructor
      · intro h
        rcases List.mem_cons.mp h with rfl | h2
        · exact ⟨hk, kw, List.mem_cons_self _ _, rfl⟩
        · rcases (ih _ c).mp h2 with ⟨hns, kw', hkw', he⟩
          exact ⟨fun hc => hns (List.mem_append_left _ hc), kw',
            List.mem_cons_of_mem _ hkw', he⟩
      · rintro ⟨hns, kw', hkw', he⟩
        by_cases hce : c = countryOf kw
        · exact hce ▸ List.mem_cons_self _ _
        · rcases List.mem_cons.mp hkw' with rfl | hmem
          · exact absurd he.symm hce
          · refine List.mem_cons_of_mem _ ((ih _ c).mpr ⟨?_, kw', hmem, he⟩)
            intro hc
            rcases List.mem_append.mp hc with hc1 | hc2
            · exact hns hc1
            · exact hce (by simpa using hc2)

theorem foldl_insertGrouped (ws : List KwEntry) :
    ∀ acc : List (String × List KwEntry),
      ws.foldl insertGrouped acc =
        acc.map (fun p => (p.1, p.2 ++ ws.filter (fun kw => countryOf kw == p.1)))
          ++ (newCountries ws (acc.map Prod.fst)).map
              (fun c => (c, ws.filter (fun kw => countryOf kw == c))) := by
  induction ws with
  | nil =>
    intro acc
    simp [newCountries]
  | cons kw rest ih =>
    intro acc
    simp only [List.foldl_cons, newCountries, List.filter_cons]
    by_cases hmem : acc.any (fun p => p.1 == countryOf kw) = true
    · rw [insertGrouped_of_mem acc kw hmem,
        if_pos ((mem_keys_iff_any acc (countryOf kw)).mpr hmem), ih]
      have hkeys : (acc.map (fun p =>
          if p.1 = countryOf kw then (p.1, p.2 ++ [kw]) else p)).map Prod.fst =
          acc.map Prod.fst := by
        rw [List.map_map]
        apply List.map_congr_left
        intro p hp
        by_cases hc : p.1 = countryOf kw
        · simp [hc]
        · simp [hc]
      rw [hkeys]
      congr 1
      · rw [List.map_map]
        apply List.map_congr_left
        intro p hp
        obtain ⟨p1, p2⟩ := p
        by_cases hc : p1 = countryOf kw
        · subst hc
          simp [Function.comp, List.append_assoc]
        · have hb : (countryOf kw == p1) = false :=
            beq_eq_false_iff_ne.mpr (fun h => hc h.symm)
          simp [Function.comp, hc, hb]
      · apply List.map_congr_left
        intro c' hc'
        have hne : c' ≠ countryOf kw := by
          intro he
          exact (newCountries_not_seen rest _ _ hc')
            (he ▸ (mem_keys_iff_any acc (countryOf kw)).mpr hmem)
        have hb : (countryOf kw == c') = false :=
          beq_eq_false_iff_ne.mpr (fun h => hne h.symm)
        simp [hb]
    · rw [insertGrouped_of_new acc kw hmem,
        if_neg (fun hc => hmem ((mem_keys_iff_any acc (countryOf kw)).mp hc)), ih]
      have hkeys : ((acc ++ [(countryOf kw, [kw])]).map Prod.fst) =
          acc.map Prod.fst ++ [countryOf kw] := by
        simp
      rw [hkeys]
      rw [List.map_append]
      have hacc : ∀ p ∈ acc, p.1 ≠ countryOf kw := by
        intro p hp he
        apply hmem
        rw [List.any_eq_true]
        exact ⟨p, hp, by simp [he]⟩
      rw [List.append_assoc]
      congr 1
      · apply List.map_congr_left
        intro p hp
        have hb : (countryOf kw == p.1) = false :=
          beq_eq_false_iff_ne.mpr (fun h => hacc p hp h.symm)
        simp [hb]
      · simp only [List.map_cons, List.map_nil]
        have hb : (countryOf kw == countryOf kw) = true := by simp
        rw [List.singleton_append]
        simp only [hb, if_true]
        congr 1
        apply List.map_congr_left
        intro c' hc'
        have hne : c' ≠ countryOf kw := by
          intro he
          exact (newCountries_not_seen rest _ _ hc')
            (he ▸ List.mem_append_right _ (by simp))
        have hb2 : (countryOf kw == c') = false :=
          beq_eq_false_iff_ne.mpr (fun h => hne h.symm)
        simp [hb2]

/-- C3: the country partition is stable: groups are keyed by country in
order of first occurrence, group keys are distinct and are exactly the
countries present (so the per-group loop issues exactly one provider call
per distinct country), each group holds the working-set entries of its
country in original relative order, and for the working set
[UK, US, UK] there are exactly two groups with the UK group preserving the
order of its two members. -/
theorem C3_country_partition_stable :
    (∀ ws : List KwEntry,
      groupByCountry ws = (firstOccurrences ws).map
          (fun c => (c, ws.filter (fun kw => countryOf kw == c))) ∧
      (groupByCountry ws).map Prod.fst = firstOccurrences ws ∧
      (firstOccurrences ws).Nodup ∧
      (∀ c : String, c ∈ firstOccurrences ws ↔ ∃ kw ∈ ws, countryOf kw = c)) ∧
    groupByCountry wsUKUSUK =
      [("UK", [⟨some "1", "kw a", some "UK"⟩, ⟨some "3", "kw c", some "UK"⟩]),
        ("US", [⟨some "2", "kw b", some "US"⟩])] ∧
    (groupByCountry wsUKUSUK).length = 2 := by
  refine ⟨?_, by decide, by decide⟩
  intro ws
  have hmain : groupByCountry ws = (firstOccurrences ws).map
      (fun c => (c, ws.filter (fun kw => countryOf kw == c))) := by
    unfold groupByCountry firstOccurrences
    simpa using foldl_insertGrouped ws []
  refine ⟨hmain, ?_, newCountries_nodup ws [], ?_⟩
  · rw [hmain, List.map_map]
    have h2 : (firstOccurrences ws).map
        (Prod.fst ∘ fun c => (c, ws.filter (fun kw => countryOf kw == c))) =
        (firstOccurrences ws).map id :=
      List.map_congr_left (fun a _ => rfl)
    rw [h2, List.map_id]
  · intro c
    rw [show firstOccurrences ws = newCountries ws [] from rfl, newCountries_mem_iff]
    simp

/-- C3 witness: the membership characterization of the partition keys
applied at the concrete three-entry working set. -/
theorem C3_country_partition_witness : "US" ∈ firstOccurrences wsUKUSUK :=
  ((C3_country_partition_stable.1 wsUKUSUK).2.2.2 "US").mpr
    ⟨⟨some "2", "kw b", some "US"⟩, by decide, by decide⟩

/-- Closed form of the metrics reconciliation loop: every record yields a
response entry; a record matched to a stored keyword attempts one row,
kept when its insert succeeds. -/
theorem processGroup_spec (f : MetricRow → Bool) (country : String) (kws : List KwEntry) :
    ∀ (records : List MetricRecord) (entries : List MetricEntry) (rows : List MetricRow),
      processGroup f country kws records (entries, rows) =
        (entries ++ records.map (recordEntry country),
          rows ++ records.filterMap (fun r =>
            match matchEntry kws r with
            | some k =>
              match k.id with
              | some kid => if f (recordRow kid r) then none else some (recordRow kid r)
              | none => none
            | none => none)) := by
  intro records
  induction records with
  | nil =>
    intro entries rows
    simp [processGroup]
  | cons r rest ih =>
    intro entries rows
    simp only [processGroup, List.map_cons, List.filterMap_cons]
    cases hm : matchEntry kws r with
    | none =>
      rw [ih]
      simp
    | some k =>
      cases hk : k.id with
      | none =>
        simp only [hk]
        rw [ih]
        simp
      | some kid =>
        simp only [hk]
        by_cases hf : f (recordRow kid r) = true
        · rw [ih]
          simp [hf]
        · rw [ih]
          simp [hf, List.append_assoc]

/-- C4: in the metrics reconciliation, every provider record (matched or
not) is appended to the flat output annotated with its group country and
with each omitted numeric field defaulted to 0; a KeywordMetric row is
attempted exactly for records whose matched entry carries a stored id
(nothing is persisted for inline entries or unmatched records); and the
match-back is the first working-set entry whose text compares equal
case-insensitively. -/
theorem C4_record_reconciliation :
    (∀ (f : MetricRow → Bool) (country : String) (kws : List KwEntry)
        (records : List MetricRecord),
      processGroup f country kws records ([], []) =
        (records.map (fun r => (⟨r.keyword, country, r.search_volume.getD 0,
            r.keyword_difficulty.getD 0, r.cpc.getD 0, r.competition.getD 0⟩ : MetricEntry)),
          records.filterMap (fun r =>
            match matchEntry kws r with
            | some k =>
              match k.id with
              | some kid => if f (recordRow kid r) then none else some (recordRow kid r)
              | none => none
            | none => none))) ∧
    (∀ (kws : List KwEntry) (r : MetricRecord) (k : KwEntry),
      matchEntry kws r = some k →
      k ∈ kws ∧ strLower k.keyword_text = strLower r.keyword) ∧
    processGroup (fun _ => false) "UK" [] [⟨"kw", none, none, none, none⟩] ([], []) =
      ([⟨"kw", "UK", 0, 0, 0, 0⟩], []) := by
  refine ⟨?_, ?_, by decide⟩
  · intro f country kws records
    simpa using processGroup_spec f country kws records [] []
  · intro kws r k hm
    unfold matchEntry at hm
    have hp := @List.find?_some KwEntry
      (fun k => strLower k.keyword_text == strLower r.keyword) k kws hm
    exact ⟨List.mem_of_find?_eq_some hm, beq_iff_eq.mp hp⟩

/-- C4 witness: the match-back characterization applied at a concrete
record whose text differs from the stored entry only in case. -/
theorem C4_record_reconciliation_witness :
    (⟨some "1", "Retirement Planning", some "UK"⟩ : KwEntry) ∈
      [(⟨some "1", "Retirement Planning", some "UK"⟩ : KwEntry)] ∧
    strLower "Retirement Planning" = strLower "retirement planning" :=
  C4_record_reconciliation.2.1 [⟨some "1", "Retirement Planning", some "UK"⟩]
    ⟨"retirement planning", some 10, none, none, none⟩
    ⟨some "1", "Retirement Planning", some "UK"⟩ (by decide)

theorem mapGet_aux (l : List (String × String)) (k : String) :
    ∀ init : Option String,
      ((l.foldl (fun acc p => if p.1 == k then some p.2 else acc) init).isSome = true) ↔
        ((∃ p ∈ l, p.1 = k) ∨ init.isSome = true) := by
  induction l with
  | nil =>
    intro init
    simp
  | cons p rest ih =>
    intro init
    simp only [List.foldl_cons]
    rw [ih]
    by_cases hp : p.1 = k
    · have hb : (p.1 == k) = true := by simp [hp]
      simp [hb, hp]
    · have hb : (p.1 == k) = false := beq_eq_false_iff_ne.mpr hp
      simp [hb, hp]

theorem mapGet_isSome_iff (l : List (String × String)) (k : String) :
    (mapGet l k).isSome = true ↔ ∃ p ∈ l, p.1 = k := by
  unfold mapGet
  rw [mapGet_aux]
  simp

/-- Closed form of the per-item SERP loop: one serp_rankings row per item
and one competitor_rankings row exactly for items whose bare domain is a
key of the competitor map. -/
theorem processItems_spec (compMap : List (String × String)) (kwId : String) :
    ∀ (items : List SerpItem) (s0 : List SerpRecord) (c0 : List CompetitorRecord),
      processItems compMap kwId items (s0, c0) =
        (s0 ++ items.map (fun item =>
            (⟨kwId, item.rank_absolute, item.url, extractDomain item.url, item.title,
              strContains (extractDomain item.url) HOXTON_DOMAIN⟩ : SerpRecord)),
          c0 ++ items.filterMap (fun item =>
            (mapGet compMap (extractDomain item.url)).map (fun cid =>
              (⟨kwId, cid, item.rank_absolute, item.url⟩ : CompetitorRecord)))) := by
  intro items
  induction items with
  | nil =>
    intro s0 c0
    simp [processItems]
  | cons item rest ih =>
    intro s0 c0
    simp only [processItems, List.map_cons, List.filterMap_cons]
    cases hg : mapGet compMap (extractDomain item.url) with
    | none =>
      rw [ih]
      simp
    | some cid =>
      rw [ih]
      simp [List.append_assoc]

/-- C7: each SERP item's URL is reduced to a bare lower-case domain with
the scheme and one leading www. label stripped; the item's serp_rankings
row is flagged is_hoxton exactly by the substring test of the first-party
domain against the bare domain; exactly one CompetitorRanking candidate is
emitted per item whose bare domain is a stored competitor domain (an exact
map lookup); and https://www.Example.com/ reduces to example.com. -/
theorem C7_serp_domain_matching :
    (∀ (compMap : List (String × String)) (kwId : String) (items : List SerpItem),
      processItems compMap kwId items ([], []) =
        (items.map (fun item =>
            (⟨kwId, item.rank_absolute, item.url, extractDomain item.url, item.title,
              strContains (extractDomain item.url) HOXTON_DOMAIN⟩ : SerpRecord)),
          items.filterMap (fun item =>
            (mapGet compMap (extractDomain item.url)).map (fun cid =>
              (⟨kwId, cid, item.rank_absolute, item.url⟩ : CompetitorRecord))))) ∧
    (∀ (l : List (String × String)) (k : String),
      (mapGet l k).isSome = true ↔ ∃ p ∈ l, p.1 = k) ∧
    extractDomain "https://www.Example.com/" = "example.com" ∧
    extractDomain "https://www.hoxtonwealth.com/en/pensions" = "hoxtonwealth.com" ∧
    strContains "hoxtonwealth.com" HOXTON_DOMAIN = true ∧
    strContains "example.com" HOXTON_DOMAIN = false ∧
    mapGet [("competitor.com", "c1")] "competitor.com" = some "c1" ∧
    mapGet [("competitor.com", "c1")] "example.com" = none := by
  refine ⟨?_, mapGet_isSome_iff, by decide, by decide, by decide, by decide, by decide,
    by decide⟩
  intro compMap kwId items
  simpa using processItems_spec compMap kwId items [] []

/-- C7 witness: the exact-lookup characterization applied at a concrete
competitor map. -/
theorem C7_serp_domain_matching_witness :
    (mapGet [("competitor.com", "c1")] "competitor.com").isSome = true :=
  (C7_serp_domain_matching.2.1 [("competitor.com", "c1")] "competitor.com").mpr
    ⟨("competitor.com", "c1"), by decide, rfl⟩

/-- The response component of the grouped provider loop does not depend on
which metric inserts fail, nor on the rows accumulated so far. -/
theorem runGroups_resp_indep
    (provider : List String → Nat → Except String (List MetricRecord)) :
    ∀ (gs : List (String × List KwEntry)) (f g : MetricRow → Bool)
      (es : List MetricEntry) (rs rs' : List MetricRow),
      (runGroups provider f gs es rs).resp = (runGroups provider g gs es rs').resp := by
  intro gs
  induction gs with
  | nil =>
    intro f g es rs rs'
    rfl
  | cons grp rest ih =>
    intro f g es rs rs'
    obtain ⟨c, kws⟩ := grp
    cases hp : provider (kws.map (fun k => k.keyword_text)) (locationFor c) with
    | error msg => simp only [runGroups, hp]
    | ok records =>
      simp only [runGroups, hp]
      have h1 : (processGroup f c kws records (es, rs)).1 =
          es ++ records.map (recordEntry c) := by
        rw [processGroup_spec]
      have h2 : (processGroup g c kws records (es, rs')).1 =
          es ++ records.map (recordEntry c) := by
        rw [processGroup_spec]
      rw [h1, h2]
      exact ih f g _ _ _

/-- The response of enrichResolved does not depend on which inserts fail. -/
theorem enrichResolved_resp_indep
    (provider : List String → Nat → Except String (List MetricRecord))
    (f g : MetricRow → Bool) (wset : List KwEntry) :
    (enrichResolved provider f wset).resp = (enrichResolved provider g wset).resp := by
  unfold enrichResolved
  split_ifs with h0 h1
  · rfl
  · rfl
  · exact runGroups_resp_indep provider _ f g _ _ _

/-- The response of the metrics enrichment handler does not depend on which
metric inserts fail. -/
theorem enrichKeywords_resp_indep (envKey : Option String)
    (db : List String → Except StoreError (List DbKeyword))
    (provider : List String → Nat → Except String (List MetricRecord))
    (f g : MetricRow → Bool) (req : MetricsReq) :
    (enrichKeywordsHandler envKey db provider f req).resp =
      (enrichKeywordsHandler envKey db provider g req).resp := by
  unfold enrichKeywordsHandler
  by_cases ha : verifyApiKey req.apiKeyHeader envKey = true
  · rw [if_pos ha, if_pos ha]
    by_cases hm : req.method = "POST"
    · rw [if_pos hm, if_pos hm]
      by_cases hb : req.keyword_ids = none ∧ req.keywords = none
      · rw [if_pos hb, if_pos hb]
      · rw [if_neg hb, if_neg hb]
        rcases hki : req.keyword_ids with _ | ids
        · exact enrichResolved_resp_indep provider f g _
        · dsimp only
          by_cases hlen : ids.length > 0
          · rw [if_pos hlen, if_pos hlen]
            cases hdb : db ids with
            | error e => rfl
            | ok rows => exact enrichResolved_resp_indep provider f g _
          · rw [if_neg hlen, if_neg hlen]
            exact enrichResolved_resp_indep provider f g _
    · rw [if_neg hm, if_neg hm]
  · rw [if_neg ha, if_neg ha]

/-- The response of the SERP enrichment handler does not depend on which of
the two batched inserts fail. -/
theorem enrichSerp_resp_indep (envKey : Option String)
    (db : List String → Except StoreError (List DbKeyword))
    (compDb : Option (List Competitor))
    (provider : String → Nat → Except String (List SerpItem))
    (sf cf sf' cf' : Bool) (req : SerpReq) :
    (enrichSerpHandler envKey db compDb provider sf cf req).resp =
      (enrichSerpHandler envKey db compDb provider sf' cf' req).resp := by
  unfold enrichSerpHandler
  by_cases ha : verifyApiKey req.apiKeyHeader envKey = true
  · rw [if_pos ha, if_pos ha]
    by_cases hm : req.method = "POST"
    · rw [if_pos hm, if_pos hm]
      rcases hki : req.keyword_ids with _ | ids
      · rfl
      · dsimp only
        by_cases h0 : ids.length = 0
        · rw [if_pos h0, if_pos h0]
        · rw [if_neg h0, if_neg h0]
          by_cases h50 : ids.length > 50
          · rw [if_pos h50, if_pos h50]
          · rw [if_neg h50, if_neg h50]
            cases hdb : db ids with
            | error e => rfl
            | ok keywords =>
              dsimp only
              by_cases hkz : keywords.length = 0
              · rw [if_pos hkz, if_pos hkz]
              · rw [if_neg hkz, if_neg hkz]
    · rw [if_neg hm, if_neg hm]
  · rw [if_neg ha, if_neg ha]

/-- C2: database insert failures of KeywordMetric, SerpRanking and
CompetitorRanking rows are swallowed: the HTTP response of either
enrichment endpoint is identical whatever inserts fail, and a request that
succeeds with no insert failures still succeeds with status 200 and the
same result list when inserts fail. -/
theorem C2_persistence_failures_swallowed :
    (∀ (envKey : Option String) (db : List String → Except StoreError (List DbKeyword))
        (provider : List String → Nat → Except String (List MetricRecord))
        (f g : MetricRow → Bool) (req : MetricsReq),
      (enrichKeywordsHandler envKey db provider f req).resp =
        (enrichKeywordsHandler envKey db provider g req).resp) ∧
    (∀ (envKey : Option String) (db : List String → Except StoreError (List DbKeyword))
        (compDb : Option (List Competitor))
        (provider : String → Nat → Except String (List SerpItem))
        (sf cf sf' cf' : Bool) (req : SerpReq),
      (enrichSerpHandler envKey db compDb provider sf cf req).resp =
        (enrichSerpHandler envKey db compDb provider sf' cf' req).resp) ∧
    (∀ (envKey : Option String) (db : List String → Except StoreError (List DbKeyword))
        (provider : List String → Nat → Except String (List MetricRecord))
        (f : MetricRow → Bool) (req : MetricsReq) (l : List MetricEntry),
      (enrichKeywordsHandler envKey db provider (fun _ => false) req).resp = Except.ok l →
      (enrichKeywordsHandler envKey db provider f req).resp = Except.ok l ∧
      statusOf (enrichKeywordsHandler envKey db provider f req).resp = 200) := by
  refine ⟨enrichKeywords_resp_indep, enrichSerp_resp_indep, ?_⟩
  intro envKey db provider f req l h
  have he : (enrichKeywordsHandler envKey db provider f req).resp = Except.ok l :=
    (enrichKeywords_resp_indep envKey db provider f (fun _ => false) req).trans h
  rw [he]
  exact ⟨rfl, rfl⟩

/-- C2 witness: a concrete inline enrichment request whose every insert
fails still answers 200 with the enriched entry present. -/
theorem C2_persistence_failures_witness :
    (enrichKeywordsHandler none dbOkEmpty providerOk1 (fun _ => true) inlineReqKw).resp =
      Except.ok [⟨"kw", "UK", 5, 0, 1, 0⟩] ∧
    statusOf (enrichKeywordsHandler none dbOkEmpty providerOk1
      (fun _ => true) inlineReqKw).resp = 200 :=
  C2_persistence_failures_swallowed.2.2 none dbOkEmpty providerOk1 (fun _ => true)
    inlineReqKw [⟨"kw", "UK", 5, 0, 1, 0⟩] (by decide)

/-- If the provider fails for any country group, the grouped loop aborts
with an ExternalApiError. -/
theorem runGroups_err (provider : List String → Nat → Except String (List MetricRecord))
    (f : MetricRow → Bool) :
    ∀ (gs : List (String × List KwEntry)) (es : List MetricEntry) (rs : List MetricRow),
      (∃ g ∈ gs, exceptIsErr
        (provider (g.2.map (fun k => k.keyword_text)) (locationFor g.1)) = true) →
      ∃ msg, (runGroups provider f gs es rs).resp =
        Except.error (externalApiError "DataForSEO" msg) := by
  intro gs
  induction gs with
  | nil =>
    rintro es rs ⟨g, hg, _⟩
    cases hg
  | cons grp rest ih =>
    rintro es rs ⟨g, hg, hgf⟩
    obtain ⟨c, kws⟩ := grp
    cases hp : provider (kws.map (fun k => k.keyword_text)) (locationFor c) with
    | error msg =>
      refine ⟨msg, ?_⟩
      simp only [runGroups, hp]
    | ok records =>
      simp only [runGroups, hp]
      rcases List.mem_cons.mp hg with rfl | hmem
      · rw [hp] at hgf
        simp [exceptIsErr] at hgf
      · exact ih _ _ ⟨g, hmem, hgf⟩

/-- With a succeeding keyword select, the metrics handler past its
auth/method/presence checks is enrichResolved on the working set. -/
theorem enrichKeywords_resolved (envKey : Option String)
    (dbRows : List String → List DbKeyword)
    (provider : List String → Nat → Except String (List MetricRecord))
    (f : MetricRow → Bool) (req : MetricsReq)
    (hauth : verifyApiKey req.apiKeyHeader envKey = true)
    (hm : req.method = "POST")
    (hnb : ¬ (req.keyword_ids = none ∧ req.keywords = none)) :
    enrichKeywordsHandler envKey (fun l => Except.ok (dbRows l)) provider f req =
      enrichResolved provider f (metricsWorkingSet dbRows req.keyword_ids req.keywords) := by
  unfold enrichKeywordsHandler metricsWorkingSet
  rw [if_pos hauth, if_pos hm, if_neg hnb]
  rcases hki : req.keyword_ids with _ | ids
  · rfl
  · dsimp only
    by_cases hlen : ids.length > 0
    · rw [if_pos hlen, if_pos hlen]
    · rw [if_neg hlen, if_neg hlen]

/-- A non-empty working set within the ceiling whose provider fails on some
group makes enrichResolved return an ExternalApiError. -/
theorem enrichResolved_ext_error
    (provider : List String → Nat → Except String (List MetricRecord))
    (f : MetricRow → Bool) (wset : List KwEntry)
    (hne : wset ≠ []) (hlen : wset.length ≤ 100)
    (hfail : ∃ g ∈ groupByCountry wset, exceptIsErr
      (provider (g.2.map (fun k => k.keyword_text)) (locationFor g.1)) = true) :
    ∃ msg, (enrichResolved provider f wset).resp =
      Except.error (externalApiError "DataForSEO" msg) := by
  unfold enrichResolved
  rw [if_neg (by simp only [List.length_eq_zero]; exact hne),
    if_neg (Nat.not_lt.mpr hlen)]
  exact runGroups_err provider f _ _ _ hfail

/-- The result-list component of the SERP loop: one entry per keyword, in
order, each independent of the others. -/
theorem serpLoop_entries (provider : String → Nat → Except String (List SerpItem))
    (compMap : List (String × String)) :
    ∀ (rows : List DbKeyword) (es : List SerpEntry) (ss : List SerpRecord)
      (cs : List CompetitorRecord),
      (serpLoop provider compMap rows (es, ss, cs)).1 =
        es ++ rows.map (serpSummary provider) := by
  intro rows
  induction rows with
  | nil =>
    intro es ss cs
    simp [serpLoop]
  | cons kw rest ih =>
    intro es ss cs
    cases hp : provider kw.keyword_text (locationFor kw.country) with
    | error msg =>
      simp only [serpLoop, hp]
      rw [ih]
      simp [serpSummary, hp]
    | ok items =>
      simp only [serpLoop, hp]
      rw [ih]
      simp [serpSummary, hp]

/-- A list entry is an error entry exactly when its keyword's provider call
failed. -/
theorem serpSummary_isFailed (provider : String → Nat → Except String (List SerpItem))
    (kw : DbKeyword) :
    (serpSummary provider kw).isFailed =
      exceptIsErr (provider kw.keyword_text (locationFor kw.country)) := by
  unfold serpSummary exceptIsErr
  cases provider kw.keyword_text (locationFor kw.country) <;> rfl

/-- With a succeeding keyword select resolving to a non-empty row list
within the ceiling, the SERP handler succeeds and returns one entry per
resolved keyword. -/
theorem enrichSerp_success (envKey : Option String)
    (dbRows : List String → List DbKeyword) (compDb : Option (List Competitor))
    (provider : String → Nat → Except String (List SerpItem))
    (sf cf : Bool) (req : SerpReq) (ids : List String)
    (hauth : verifyApiKey req.apiKeyHeader envKey = true)
    (hm : req.method = "POST") (hki : req.keyword_ids = some ids)
    (hne : ids ≠ []) (hlen : ids.length ≤ 50) (hrows : dbRows ids ≠ []) :
    (enrichSerpHandler envKey (fun l => Except.ok (dbRows l)) compDb provider
        sf cf req).resp =
      Except.ok ((dbRows ids).map (serpSummary provider)) := by
  unfold enrichSerpHandler
  rw [if_pos hauth, if_pos hm, hki]
  dsimp only
  rw [if_neg (by simp only [List.length_eq_zero]; exact hne),
    if_neg (Nat.not_lt.mpr hlen)]
  rw [if_neg (by simp only [List.length_eq_zero]; exact hrows)]
  dsimp only
  rw [serpLoop_entries]
  simp

/-- C1: provider-failure handling is asymmetric between the two enrichment
endpoints: any country group whose provider call fails makes the whole
/enrich/keywords request fail with a 502 EXTERNAL_API_ERROR, while a
/enrich/serp provider failure is scoped to its keyword — the handler still
succeeds with one entry per keyword, an entry being an error entry exactly
when that keyword's provider call failed — and a batch of three with one
failing keyword yields exactly one error entry and two successful
entries. -/
theorem C1_provider_failure_asymmetry :
    (∀ (envKey : Option String) (dbRows : List String → List DbKeyword)
        (provider : List String → Nat → Except String (List MetricRecord))
        (f : MetricRow → Bool) (req : MetricsReq),
      verifyApiKey req.apiKeyHeader envKey = true → req.method = "POST" →
      metricsWorkingSet dbRows req.keyword_ids req.keywords ≠ [] →
      (metricsWorkingSet dbRows req.keyword_ids req.keywords).length ≤ 100 →
      (∃ g ∈ groupByCountry (metricsWorkingSet dbRows req.keyword_ids req.keywords),
        exceptIsErr (provider (g.2.map (fun k => k.keyword_text)) (locationFor g.1)) = true) →
      ∃ e, (enrichKeywordsHandler envKey (fun l => Except.ok (dbRows l))
          provider f req).resp = Except.error e ∧
        e.status = 502 ∧ e.code = "EXTERNAL_API_ERROR") ∧
    (∀ (envKey : Option String) (dbRows : List String → List DbKeyword)
        (compDb : Option (List Competitor))
        (provider : String → Nat → Except String (List SerpItem))
        (sf cf : Bool) (req : SerpReq) (ids : List String),
      verifyApiKey req.apiKeyHeader envKey = true → req.method = "POST" →
      req.keyword_ids = some ids → ids ≠ [] → ids.length ≤ 50 → dbRows ids ≠ [] →
      (enrichSerpHandler envKey (fun l => Except.ok (dbRows l)) compDb provider
          sf cf req).resp = Except.ok ((dbRows ids).map (serpSummary provider)) ∧
      (∀ kw : DbKeyword, (serpSummary provider kw).isFailed =
        exceptIsErr (provider kw.keyword_text (locationFor kw.country)))) ∧
    ((enrichSerpHandler none (fun l => Except.ok (serpDbRows3 l)) none failBeta
        false false serpReq123).resp =
      Except.ok [.summary "alpha" "UK" 0 none,
        .failed "beta" "SERP API request failed", .summary "gamma" "UK" 0 none] ∧
      (serpDb3.map (serpSummary failBeta)).countP SerpEntry.isFailed = 1 ∧
      (serpDb3.map (serpSummary failBeta)).countP
        (fun e => !(SerpEntry.isFailed e)) = 2) := by
  refine ⟨?_, ?_, by decide⟩
  · intro envKey dbRows provider f req hauth hm hwne hwlen hfail
    have hnb : ¬ (req.keyword_ids = none ∧ req.keywords = none) := by
      rintro ⟨h1, h2⟩
      exact hwne (by rw [h1, h2]; rfl)
    rw [enrichKeywords_resolved envKey dbRows provider f req hauth hm hnb]
    obtain ⟨msg, hmsg⟩ := enrichResolved_ext_error provider f _ hwne hwlen hfail
    exact ⟨externalApiError "DataForSEO" msg, hmsg, rfl, rfl⟩
  · intro envKey dbRows compDb provider sf cf req ids hauth hm hki hne hlen hrows
    exact ⟨enrichSerp_success envKey dbRows compDb provider sf cf req ids
        hauth hm hki hne hlen hrows,
      fun kw => serpSummary_isFailed provider kw⟩

/-- C1 witness: a concrete metrics request whose single provider call fails
is answered with status 502. -/
theorem C1_provider_failure_witness :
    statusOf (enrichKeywordsHandler none (fun l => Except.ok (dbNone l))
      providerNetErr (fun _ => false) inlineReqKw).resp = 502 := by
  obtain ⟨e, he, hs, _⟩ := C1_provider_failure_asymmetry.1 none dbNone providerNetErr
    (fun _ => false) inlineReqKw rfl rfl (by decide) (by decide) (by decide)
  rw [he]
  exact hs

/-- The grouped provider loop never produces a validation error: it either
succeeds or aborts with an ExternalApiError. -/
theorem runGroups_not_validation
    (provider : List String → Nat → Except String (List MetricRecord))
    (f : MetricRow → Bool) :
    ∀ (gs : List (String × List KwEntry)) (es : List MetricEntry) (rs : List MetricRow),
      isValidationErr (runGroups provider f gs es rs).resp = false
  | [], es, rs => rfl
  | (c, kws) :: rest, es, rs => by
    cases hp : provider (kws.map (fun k => k.keyword_text)) (locationFor c) with
    | error msg =>
      simp only [runGroups, hp]
      rfl
    | ok records =>
      simp only [runGroups, hp]
      exact runGroups_not_validation provider f rest _ _

/-- enrichResolved yields a validation error exactly for an empty working
set or one beyond the 100 ceiling. -/
theorem enrichResolved_validation_iff
    (provider : List String → Nat → Except String (List MetricRecord))
    (f : MetricRow → Bool) (wset : List KwEntry) :
    isValidationErr (enrichResolved provider f wset).resp = true ↔
      (wset = [] ∨ 100 < wset.length) := by
  unfold enrichResolved
  split_ifs with h0 h1
  · exact iff_of_true rfl (Or.inl (List.length_eq_zero.mp h0))
  · exact iff_of_true rfl (Or.inr h1)
  · refine iff_of_false ?_ ?_
    · rw [runGroups_not_validation provider f _ [] []]
      simp
    · rintro (h | h)
      · exact h0 (by rw [h]; rfl)
      · exact h1 h

/-- The metrics handler (with a succeeding select) answers a validation
error exactly when no input is given, the working set is empty, or the
working set is beyond the 100 ceiling. -/
theorem enrichKeywords_validation_iff (envKey : Option String)
    (dbRows : List String → List DbKeyword)
    (provider : List String → Nat → Except String (List MetricRecord))
    (f : MetricRow → Bool) (req : MetricsReq)
    (hauth : verifyApiKey req.apiKeyHeader envKey = true)
    (hm : req.method = "POST") :
    isValidationErr (enrichKeywordsHandler envKey (fun l => Except.ok (dbRows l))
        provider f req).resp = true ↔
      ((req.keyword_ids = none ∧ req.keywords = none) ∨
        metricsWorkingSet dbRows req.keyword_ids req.keywords = [] ∨
        100 < (metricsWorkingSet dbRows req.keyword_ids req.keywords).length) := by
  by_cases hb : req.keyword_ids = none ∧ req.keywords = none
  · have hh : enrichKeywordsHandler envKey (fun l => Except.ok (dbRows l)) provider f req =
        ⟨Except.error (validationError "Must provide either keyword_ids or keywords array"),
          []⟩ := by
      unfold enrichKeywordsHandler
      rw [if_pos hauth, if_pos hm, if_pos hb]
    rw [hh]
    exact iff_of_true rfl (Or.inl hb)
  · rw [enrichKeywords_resolved envKey dbRows provider f req hauth hm hb,
      enrichResolved_validation_iff]
    constructor
    · intro h
      exact Or.inr h
    · rintro (h | h)
      · exact absurd h hb
      · exact h

/-- The SERP handler (with a succeeding select) answers a validation error
exactly when keyword_ids is missing or empty, beyond the 50 ceiling, or
resolves to no stored rows. -/
theorem enrichSerp_validation_iff (envKey : Option String)
    (dbRows : List String → List DbKeyword) (compDb : Option (List Competitor))
    (provider : String → Nat → Except String (List SerpItem))
    (sf cf : Bool) (req : SerpReq)
    (hauth : verifyApiKey req.apiKeyHeader envKey = true)
    (hm : req.method = "POST") :
    isValidationErr (enrichSerpHandler envKey (fun l => Except.ok (dbRows l)) compDb
        provider sf cf req).resp = true ↔
      (req.keyword_ids = none ∨ req.keyword_ids.getD [] = [] ∨
        50 < (req.keyword_ids.getD []).length ∨ dbRows (req.keyword_ids.getD []) = []) := by
  unfold enrichSerpHandler
  rw [if_pos hauth, if_pos hm]
  rcases hki : req.keyword_ids with _ | ids
  · exact iff_of_true rfl (Or.inl rfl)
  · dsimp only
    simp only [Option.getD_some]
    by_cases h0 : ids.length = 0
    · rw [if_pos h0]
      exact iff_of_true rfl (Or.inr (Or.inl (List.length_eq_zero.mp h0)))
    · rw [if_neg h0]
      by_cases h50 : ids.length > 50
      · rw [if_pos h50]
        exact iff_of_true rfl (Or.inr (Or.inr (Or.inl h50)))
      · rw [if_neg h50]
        by_cases hkz : (dbRows ids).length = 0
        · rw [if_pos hkz]
          exact iff_of_true rfl
            (Or.inr (Or.inr (Or.inr (List.length_eq_zero.mp hkz))))
        · rw [if_neg hkz]
          constructor
          · intro h
            simp [isValidationErr] at h
          · rintro (h | h | h | h)
            · cases h
            · exact absurd (by rw [h]; rfl) h0
            · exact absurd h h50
            · exact absurd (by rw [h]; rfl) hkz

/-- C6: the enrichment endpoints answer a validation error (400) exactly
when no input is given, the resolved working set is empty (keyword_ids
resolving to zero rows is a validation error, not an empty success), or
the working set is beyond the per-request ceiling (100 for metrics, 50 for
SERP); the ceiling is checked before any store or provider call (the
ceiling responses below hold for every provider and, for SERP, every
store), and the ceiling error carries the maximum: 101 metrics ids are
rejected naming 100 and 51 SERP ids naming 50. -/
theorem C6_validation_error_conditions :
    (∀ (envKey : Option String) (dbRows : List String → List DbKeyword)
        (provider : List String → Nat → Except String (List MetricRecord))
        (f : MetricRow → Bool) (req : MetricsReq),
      verifyApiKey req.apiKeyHeader envKey = true → req.method = "POST" →
      (isValidationErr (enrichKeywordsHandler envKey (fun l => Except.ok (dbRows l))
          provider f req).resp = true ↔
        ((req.keyword_ids = none ∧ req.keywords = none) ∨
          metricsWorkingSet dbRows req.keyword_ids req.keywords = [] ∨
          100 < (metricsWorkingSet dbRows req.keyword_ids req.keywords).length))) ∧
    (∀ (envKey : Option String) (dbRows : List String → List DbKeyword)
        (compDb : Option (List Competitor))
        (provider : String → Nat → Except String (List SerpItem))
        (sf cf : Bool) (req : SerpReq),
      verifyApiKey req.apiKeyHeader envKey = true → req.method = "POST" →
      (isValidationErr (enrichSerpHandler envKey (fun l => Except.ok (dbRows l)) compDb
          provider sf cf req).resp = true ↔
        (req.keyword_ids = none ∨ req.keyword_ids.getD [] = [] ∨
          50 < (req.keyword_ids.getD []).length ∨
          dbRows (req.keyword_ids.getD []) = []))) ∧
    (∀ (provider : List String → Nat → Except String (List MetricRecord))
        (f : MetricRow → Bool),
      (enrichKeywordsHandler none (fun l => Except.ok (idRows l)) provider f
          metricsReq101).resp =
        Except.error (validationErrorMax "Maximum 100 keywords per request" 101 100)) ∧
    (∀ (db : List String → Except StoreError (List DbKeyword))
        (compDb : Option (List Competitor))
        (provider : String → Nat → Except String (List SerpItem)) (sf cf : Bool),
      (enrichSerpHandler none db compDb provider sf cf serpReq51).resp =
        Except.error (validationErrorMax "Maximum 50 keywords per SERP request" 51 50)) ∧
    (validationErrorMax "Maximum 100 keywords per request" 101 100).maximum = some 100 ∧
    (validationErrorMax "Maximum 50 keywords per SERP request" 51 50).maximum = some 50 := by
  refine ⟨enrichKeywords_validation_iff, enrichSerp_validation_iff, ?_, ?_, rfl, rfl⟩
  · intro provider f
    rfl
  · intro db compDb provider sf cf
    rfl

/-- C6 witness: keyword_ids resolving to zero stored rows is answered with
a validation error, via the metrics characterization at a concrete
request. -/
theorem C6_validation_error_witness :
    isValidationErr (enrichKeywordsHandler none (fun l => Except.ok (dbNone l))
      providerOk1 (fun _ => false) ⟨none, "POST", some ["x"], none⟩).resp = true :=
  (C6_validation_error_conditions.1 none dbNone providerOk1 (fun _ => false)
      ⟨none, "POST", some ["x"], none⟩ rfl rfl).mpr
    (Or.inr (Or.inl (by decide)))

/-- C10 witness: with API_KEY unset and no x-api-key header, a concrete
request to each enrichment endpoint is not answered with 401. -/
theorem C10_auth_undefined_witness :
    statusOf (enrichKeywordsHandler none (fun l => Except.ok (idRows l))
      (fun _ _ => Except.ok []) (fun _ => false)
      ⟨none, "POST", none, some [⟨"kw", some "UK"⟩]⟩).resp ≠ 401 ∧
    statusOf (enrichSerpHandler none (fun l => Except.ok (idRows l)) none failBeta
      false false ⟨none, "POST", some ["1"]⟩).resp ≠ 401 :=
  ⟨C10_auth_undefined_equals_undefined.2.2.1 _ _ _ _ rfl,
    C10_auth_undefined_equals_undefined.2.2.2 _ _ _ _ _ _ rfl⟩

end HwSeo
